import Mathlib

/-!
Shallow embedding of `src/pyats/contrib/creators/libs/testbed_manager.py`
(class `TestbedManager`) and proofs about its orchestration logic.

External calls (the pyats/genie device API) are modelled as oracle fields on
each device: every call that may raise a Python exception is an
`Except String` value, so a `try/except` in the source becomes an explicit
`match` in the embedding, and a call site with no surrounding `try` becomes a
monadic bind that propagates the error.  Python `set`s of device names are
modelled as duplicate-free insertion into a `List String`; the testbed's
device dictionary is an insertion-ordered `List Device` keyed by `Device.name`.
Functions additionally return a trace of the external calls they issued, so
that claims of the form "no fetch is performed" are statable.
-/

namespace TestbedMgr

/-- Neighbor table returned by the cdp/lldp fetch APIs; opaque to the
orchestrator, modelled as an association list. -/
abbrev NbrTable := List (String × String)

/-- One named connection path of a device (an entry of
`device.connections`), with its protocol tag (e.g. "ssh"). -/
structure Conn where
  name : String
  protocol : String
deriving DecidableEq, Repr

/-- One interface record of a device: a name and an optional resolved IPv4
value, kept as the validated address string produced by `IPv4Interface`. -/
structure Intf where
  name : String
  ipv4 : Option String
deriving DecidableEq, Repr

/-- Per-device oracle for the external device-automation layer
(`device.connect`, `device.api.*`).  Each field gives the outcome the
external layer would produce for that call; `Except.error` models a raised
Python exception. -/
structure DeviceApi where
  connect : String → Nat → Except String Unit
  destroy : Except String Unit
  verify_cdp_in_state : Nat → Nat → Except String Bool
  configure_cdp : Except String Unit
  verify_lldp_in_state : Nat → Nat → Except String Bool
  configure_lldp : Except String Unit
  get_cdp_neighbors_info : Except String NbrTable
  get_lldp_neighbors_info : Except String NbrTable
  get_interface_ipv4_address : String → Except String String

/-- A device record of the testbed: identity, OS tag, connectivity flag,
ordered connection paths, interfaces, and the external-call oracle. -/
structure Device where
  name : String
  os : String
  connected : Bool
  connections : List Conn
  interfaces : List Intf
  api : DeviceApi

/-- The `TestbedManager` state: constructor arguments plus the three
bookkeeping sets (`cdp_configured`, `lldp_configured`, `visited_devices`). -/
structure Manager where
  ssh_only : Bool
  alias_dict : List (String × String)
  timeout : Nat
  supported_os : List String
  cdp_configured : List String
  lldp_configured : List String
  visited_devices : List String
  testbed : List Device

/-- Python `set.add` on a set of names modelled as a duplicate-free list. -/
def insertName (n : String) (s : List String) : List String :=
  if n ∈ s then s else n :: s

/-- Embedding of `TestbedManager.get_neighbor_info` (lines 175-194).
Returns the trace of neighbor-fetch calls issued and the returned dictionary
`{device.name: {'cdp': cdp, 'lldp': lldp}}`.  The function is total into
`.ok` because both fetches are wrapped in `try/except` in the source. -/
def get_neighbor_info (mgr : Manager) (device : Device) :
    Except String (List String × List (String × List (String × NbrTable))) :=
  let cdp : NbrTable := []
  let lldp : NbrTable := []
  if device.os ∉ mgr.supported_os ∨ ¬ device.connected then
    .ok ([], [(device.name, [("cdp", cdp), ("lldp", lldp)])])
  else
    let cdp := match device.api.get_cdp_neighbors_info with
      | .ok t => t
      | .error _ => cdp
    let lldp := match device.api.get_lldp_neighbors_info with
      | .ok t => t
      | .error _ => lldp
    .ok (["get_cdp_neighbors_info", "get_lldp_neighbors_info"],
         [(device.name, [("cdp", cdp), ("lldp", lldp)])])

/-- Embedding of `device.destroy()`: discards the state of a failed or stale
connection attempt, leaving the device disconnected.  Spec section 6 lists
it among the Device Operations that may fail; the source calls it inside
`except` handlers with no guard of its own (lines 68 and 83), so a raised
exception from it propagates: the call's outcome comes from the device's
oracle. -/
def destroy (d : Device) : Except String Device :=
  match d.api.destroy with
  | .ok _ => .ok { d with connected := false }
  | .error e => .error e

/-- Embedding of `device.connect(via=..., connection_timeout=...)`: an
idempotent no-op when already connected (spec section 6), otherwise the
outcome is given by the device's oracle; a successful call sets the
connectivity flag. -/
def attempt_connect (d : Device) (via : String) (tmo : Nat) : Except String Device :=
  if d.connected then .ok d
  else match d.api.connect via tmo with
    | .ok _ => .ok { d with connected := true }
    | .error e => .error e

/-- Lookup of `self.alias_dict[device]` (`device in self.alias_dict`). -/
def lookupAlias (al : List (String × String)) (n : String) : Option String :=
  (al.find? (fun p => p.fst = n)).map Prod.snd

/-- Embedding of the preferred-alias block of `_connect_one_device`
(lines 60-70): when an alias is configured and names an existing connection,
attempt to connect via it with the hardcoded `connection_timeout = 10`.
The bare `except:` catches the connect failure, but the `destroy()` call in
the handler is unguarded, so its own failure escapes.  Returns the trace of
(via, timeout) connect attempts made, and either the updated device or the
escaped exception. -/
def alias_attempt (mgr : Manager) (d : Device) :
    List (String × Nat) × Except String Device :=
  match lookupAlias mgr.alias_dict d.name with
  | none => ([], .ok d)
  | some a =>
    if a ∈ d.connections.map Conn.name then
      match attempt_connect d a 10 with
      | .ok d1 => ([(a, 10)], .ok d1)
      | .error _ => ([(a, 10)], destroy d)
    else ([], .ok d)

/-- Embedding of the fallback loop of `_connect_one_device` (lines 75-83):
iterate the connection paths in order, skipping non-ssh paths when
`ssh_only` is set; each attempt uses `connection_timeout = self.timeout`;
stop at the first success.  The `except Exception` catches each connect
failure, but the `destroy()` in the handler is unguarded, so a failure of
it aborts the loop and escapes. -/
def try_connections (mgr : Manager) :
    Device → List Conn → List (String × Nat) × Except String Device
  | d, [] => ([], .ok d)
  | d, c :: rest =>
    if ¬ mgr.ssh_only ∨ (mgr.ssh_only ∧ c.protocol = "ssh") then
      match attempt_connect d c.name mgr.timeout with
      | .ok d1 => ([(c.name, mgr.timeout)], .ok d1)
      | .error _ =>
        match destroy d with
        | .error e => ([(c.name, mgr.timeout)], .error e)
        | .ok d2 =>
          ((c.name, mgr.timeout) :: (try_connections mgr d2 rest).fst,
           (try_connections mgr d2 rest).snd)
    else try_connections mgr d rest

/-- Embedding of `TestbedManager._connect_one_device` (lines 49-83): the
alias attempt, the early return when connected, then the fallback loop.
The first component is the trace of every (via, timeout) connect attempt
issued before the unit finished or its exception escaped; the second is
the final device on normal return, or the escaped exception (which can
only come from an unguarded `destroy()` call). -/
def connect_one_device (mgr : Manager) (d : Device) :
    List (String × Nat) × Except String Device :=
  match (alias_attempt mgr d).snd with
  | .error e => ((alias_attempt mgr d).fst, .error e)
  | .ok d1 =>
    if d1.connected then ((alias_attempt mgr d).fst, .ok d1)
    else
      ((alias_attempt mgr d).fst ++ (try_connections mgr d1 d1.connections).fst,
       (try_connections mgr d1 d1.connections).snd)

/-- Selection predicate of `connect_all_devices` (line 43): submit unless
connected, or the OS is unsupported, or the device was already visited. -/
def should_connect (mgr : Manager) (d : Device) : Bool :=
  !(d.connected || !(decide (d.os ∈ mgr.supported_os))
    || decide (d.name ∈ mgr.visited_devices))

/-- The devices `connect_all_devices` submits to the executor, in testbed
order (lines 41-47). -/
def connect_selection (mgr : Manager) : List Device :=
  mgr.testbed.filter (should_connect mgr)

/-- Embedding of `TestbedManager.connect_all_devices` (lines 29-47): one
`_connect_one_device` task per selected device; each task touches only its
own device, so the fan-out is modelled by updating each selected device
independently.  `limit` is the executor's worker bound and does not affect
the per-device outcomes. -/
def connect_all_devices (mgr : Manager) (_limit : Nat) : Manager :=
  { mgr with testbed := mgr.testbed.map (fun d =>
      if should_connect mgr d then
        match (connect_one_device mgr d).snd with
        | .ok d1 => d1
        | .error _ => d
      else d) }

/-- Selection predicate of `configure_testbed_cdp_protocol` (line 92):
skip when visited, already marked configured, or not connected. -/
def cdp_eligible (mgr : Manager) (d : Device) : Bool :=
  !(decide (d.name ∈ mgr.visited_devices) || decide (d.name ∈ mgr.cdp_configured)
    || !d.connected)

/-- The `device_to_configure` list built by `configure_testbed_cdp_protocol`
(lines 90-94). -/
def cdp_selection (mgr : Manager) : List Device :=
  mgr.testbed.filter (cdp_eligible mgr)

/-- Embedding of `TestbedManager.configure_device_cdp_protocol`
(lines 101-115).  The `verify_cdp_in_state` call is OUTSIDE the
`try/except` in the source, so its exception propagates (monadic bind);
only the `configure_cdp` call is caught. -/
def configure_device_cdp_protocol (mgr : Manager) (device : Device) :
    Except String Manager :=
  match device.api.verify_cdp_in_state mgr.timeout 5 with
  | .error e => .error e
  | .ok inState =>
    if ¬ inState then
      match device.api.configure_cdp with
      | .ok _ => .ok { mgr with cdp_configured := insertName device.name mgr.cdp_configured }
      | .error _ => .ok mgr
    else .ok mgr

/-- The `pcall` fan-out of `configure_testbed_cdp_protocol` (lines 97-98),
linearized: each worker inserts at most its own device's name, and the
workers' keys are distinct, so running them in sequence yields the same
final sets; a worker's uncaught exception is re-raised by `pcall`. -/
def run_cdp_fanout : Manager → List Device → Except String Manager
  | mgr, [] => .ok mgr
  | mgr, d :: rest =>
    match configure_device_cdp_protocol mgr d with
    | .error e => .error e
    | .ok mgr1 => run_cdp_fanout mgr1 rest

/-- Embedding of `TestbedManager.configure_testbed_cdp_protocol`
(lines 85-98): build the selection, return immediately when it is empty,
otherwise fan out `configure_device_cdp_protocol` over it (the `pcall`
fan-out linearized; each worker inserts a distinct key). -/
def configure_testbed_cdp_protocol (mgr : Manager) : Except String Manager :=
  let sel := cdp_selection mgr
  if sel.isEmpty then .ok mgr
  else run_cdp_fanout mgr sel

/-- Selection predicate of `configure_testbed_lldp_protocol` (line 125). -/
def lldp_eligible (mgr : Manager) (d : Device) : Bool :=
  !(decide (d.name ∈ mgr.visited_devices) || decide (d.name ∈ mgr.lldp_configured)
    || !d.connected)

/-- The `device_to_configure` list built by `configure_testbed_lldp_protocol`
(lines 123-127). -/
def lldp_selection (mgr : Manager) : List Device :=
  mgr.testbed.filter (lldp_eligible mgr)

/-- Embedding of `TestbedManager.configure_device_lldp_protocol`
(lines 134-148); same shape as the cdp variant, `verify_lldp_in_state`
outside the `try`. -/
def configure_device_lldp_protocol (mgr : Manager) (device : Device) :
    Except String Manager :=
  match device.api.verify_lldp_in_state mgr.timeout 5 with
  | .error e => .error e
  | .ok inState =>
    if ¬ inState then
      match device.api.configure_lldp with
      | .ok _ => .ok { mgr with lldp_configured := insertName device.name mgr.lldp_configured }
      | .error _ => .ok mgr
    else .ok mgr

/-- The `pcall` fan-out of `configure_testbed_lldp_protocol`
(lines 130-131), linearized as for cdp. -/
def run_lldp_fanout : Manager → List Device → Except String Manager
  | mgr, [] => .ok mgr
  | mgr, d :: rest =>
    match configure_device_lldp_protocol mgr d with
    | .error e => .error e
    | .ok mgr1 => run_lldp_fanout mgr1 rest

/-- Embedding of `TestbedManager.configure_testbed_lldp_protocol`
(lines 118-131). -/
def configure_testbed_lldp_protocol (mgr : Manager) : Except String Manager :=
  let sel := lldp_selection mgr
  if sel.isEmpty then .ok mgr
  else run_lldp_fanout mgr sel

/-- Split a character list at every occurrence of a separator. -/
def splitOnChar (sep : Char) : List Char → List (List Char)
  | [] => [[]]
  | c :: cs =>
    if c = sep then [] :: splitOnChar sep cs
    else
      match splitOnChar sep cs with
      | [] => [[c]]
      | g :: gs => (c :: g) :: gs

/-- Read a nonempty all-digit character list as a decimal number. -/
def digitsToNat (cs : List Char) : Option Nat :=
  if cs ≠ [] ∧ cs.all Char.isDigit then
    some (cs.foldl (fun n c => n * 10 + (c.toNat - 48)) 0)
  else none

/-- Validity of a dotted quad: four dot-separated decimal octets, each in
0..255. -/
def validOctets (addr : List Char) : Bool :=
  let os := splitOnChar '.' addr
  os.length == 4 && os.all (fun o =>
    match digitsToNat o with
    | some n => decide (n ≤ 255)
    | none => false)

/-- Modelled from the spec: `ipaddress.IPv4Interface` (Python standard
library, not under src) parses the fetched address string into a structured
IPv4-interface value (section 4.4 "parse it into a structured
IPv4-interface value") and raises `ValueError` on malformed input.
Modelled as a validating parser — a dotted quad optionally followed by a
slash and a prefix length in 0..32 — whose structured value is the
validated string itself. -/
def IPv4Interface (ip : String) : Except String String :=
  match splitOnChar '/' ip.toList with
  | [addr] => if validOctets addr then .ok ip else .error "ValueError"
  | [addr, plen] =>
    if validOctets addr &&
        (match digitsToNat plen with
         | some n => decide (n ≤ 32)
         | none => false) then
      .ok ip
    else .error "ValueError"
  | _ => .error "ValueError"

/-- Interface loop of `get_interfaces_ipV4_address` (lines 204-209): for each
interface with no resolved ipv4, fetch the address (NO `try/except` in the
source, so a raised exception propagates), and when non-empty (`if ip:`)
parse it with `IPv4Interface` (also uncaught, line 208) and store the
parsed value.  Returns the trace of fetched interface names and the updated
interface list. -/
def fetch_interfaces (api : DeviceApi) : List Intf → Except String (List String × List Intf)
  | [] => .ok ([], [])
  | i :: rest =>
    match i.ipv4 with
    | some _ =>
      match fetch_interfaces api rest with
      | .error e => .error e
      | .ok (t, l) => .ok (t, i :: l)
    | none =>
      match api.get_interface_ipv4_address i.name with
      | .error e => .error e
      | .ok ip =>
        if ip ≠ "" then
          match IPv4Interface ip with
          | .error e => .error e
          | .ok v =>
            match fetch_interfaces api rest with
            | .error e => .error e
            | .ok (t, l) => .ok (i.name :: t, { i with ipv4 := some v } :: l)
        else
          match fetch_interfaces api rest with
          | .error e => .error e
          | .ok (t, l) => .ok (i.name :: t, i :: l)

/-- Embedding of `TestbedManager.get_interfaces_ipV4_address`
(lines 196-209): no-op when not connected, unsupported OS, or zero
interfaces; otherwise run the fetch loop over the interfaces. -/
def get_interfaces_ipV4_address (mgr : Manager) (device : Device) :
    Except String (List String × Device) :=
  if device.connected = false ∨ device.os ∉ mgr.supported_os
      ∨ device.interfaces.length < 1 then
    .ok ([], device)
  else
    match fetch_interfaces device.api device.interfaces with
    | .error e => .error e
    | .ok (t, l) => .ok (t, { device with interfaces := l })

/-- State of one fan-out: how many items have not yet been started, and how
many units of work are currently in flight. -/
structure ExecState where
  pending : Nat
  inflight : Nat
deriving DecidableEq, Repr

/-- Modelled from the spec: the Bounded Concurrent Executor of section 4.1
(the `ThreadPoolExecutor` used by `connect_all_devices` is an external
library, not under src).  A step either starts a pending item — only while
fewer than `bound` units are in flight — or finishes an in-flight unit. -/
inductive ExecStep (bound : Nat) : ExecState → ExecState → Prop
  | start (s : ExecState) (hp : 0 < s.pending) (hb : s.inflight < bound) :
      ExecStep bound s ⟨s.pending - 1, s.inflight + 1⟩
  | finish (s : ExecState) (hf : 0 < s.inflight) :
      ExecStep bound s ⟨s.pending, s.inflight - 1⟩

/-- Initial executor state of the `connect_all_devices` fan-out: all selected
devices pending, nothing started yet. -/
def connect_fanout_start (mgr : Manager) : ExecState :=
  ⟨(connect_selection mgr).length, 0⟩

/-- Modelled from the spec: the `pcall` helper used by the cdp/lldp
configuration fan-outs is an external library; per the design notes
(section 9) it is an unbounded thread-per-call fan-out, so it starts one
worker per item immediately, with every item in flight from the start. -/
def pcall_start (n : Nat) : ExecState := ⟨0, n⟩

/-- Initial fan-out state of `configure_testbed_cdp_protocol` (line 97):
`pcall` over the whole selection. -/
def cdp_fanout_start (mgr : Manager) : ExecState :=
  pcall_start (cdp_selection mgr).length

/-- Initial fan-out state of `configure_testbed_lldp_protocol` (line 130). -/
def lldp_fanout_start (mgr : Manager) : ExecState :=
  pcall_start (lldp_selection mgr).length

/-- A benign oracle used by the concrete examples: every call succeeds and
no protocol is already in state. -/
def apiOk : DeviceApi where
  connect := fun _ _ => .ok ()
  destroy := .ok ()
  verify_cdp_in_state := fun _ _ => .ok false
  configure_cdp := .ok ()
  verify_lldp_in_state := fun _ _ => .ok false
  configure_lldp := .ok ()
  get_cdp_neighbors_info := .ok [("Eth1", "nbrA")]
  get_lldp_neighbors_info := .ok [("Eth2", "nbrB")]
  get_interface_ipv4_address := fun _ => .ok "10.0.0.1/24"

/-- Concrete already-connected device for the C5 witness. -/
def devW5 : Device := ⟨"w5", "iosxe", true, [], [], apiOk⟩

/-- Concrete manager for the C5 witness. -/
def mgrW5 : Manager := ⟨false, [], 10, ["iosxe"], [], [], [], [devW5]⟩

/-- C5: `connect_all_devices` submits exactly the devices that are not
connected, have a supported OS, and are not in the visited set; in
particular a device already connected is never submitted. -/
theorem connect_selection_exact (mgr : Manager) (d : Device) :
    (d ∈ connect_selection mgr ↔
      d ∈ mgr.testbed ∧ d.connected = false ∧ d.os ∈ mgr.supported_os ∧
        d.name ∉ mgr.visited_devices) ∧
    (d.connected = true → d ∉ connect_selection mgr) := by
  constructor
  · simp only [connect_selection, List.mem_filter, should_connect,
      Bool.not_eq_true', Bool.or_eq_false_iff, Bool.not_eq_true,
      decide_eq_false_iff_not, Bool.not_eq_false', decide_eq_true_eq]
    tauto
  · intro hc hmem
    rw [connect_selection, List.mem_filter] at hmem
    simp [should_connect, hc] at hmem

/-- Witness for `connect_selection_exact` at a concrete connected device. -/
theorem connect_selection_exact_witness : devW5 ∉ connect_selection mgrW5 :=
  (connect_selection_exact mgrW5 devW5).2 rfl

/-- Concrete disconnected supported-OS device for the C7 witness. -/
def devW7 : Device := ⟨"w7", "nxos", false, [], [], apiOk⟩

/-- Concrete manager for the C7 witness. -/
def mgrW7 : Manager := ⟨false, [], 10, ["nxos"], [], [], [], [devW7]⟩

/-- C7: for a supported-OS device that is not connected, `get_neighbor_info`
returns exactly the placeholder `{name: {cdp: {}, lldp: {}}}`, issuing no
neighbor-fetch call (empty trace). -/
theorem get_neighbor_info_disconnected (mgr : Manager) (d : Device)
    (hos : d.os ∈ mgr.supported_os) (hc : d.connected = false) :
    get_neighbor_info mgr d =
      .ok ([], [(d.name, [("cdp", []), ("lldp", [])])]) := by
  simp [get_neighbor_info, hc]

/-- Witness for `get_neighbor_info_disconnected` at a concrete device. -/
theorem get_neighbor_info_disconnected_witness :
    get_neighbor_info mgrW7 devW7 =
      .ok ([], [("w7", [("cdp", []), ("lldp", [])])]) :=
  get_neighbor_info_disconnected mgrW7 devW7 (by decide) rfl

/-- C10: `get_neighbor_info` always returns a mapping with exactly one
top-level key, the device's name, whose value is a dictionary with exactly
the keys "cdp" and "lldp"; for an eligible device a failed fetch leaves
that protocol's entry as the empty mapping while a successful fetch of the
other protocol is still returned. -/
theorem get_neighbor_info_shape (mgr : Manager) (d : Device) :
    ∃ tr c l, get_neighbor_info mgr d =
        .ok (tr, [(d.name, [("cdp", c), ("lldp", l)])]) ∧
      (d.os ∈ mgr.supported_os → d.connected = true →
        (∀ e, d.api.get_cdp_neighbors_info = .error e → c = []) ∧
        (∀ t, d.api.get_cdp_neighbors_info = .ok t → c = t) ∧
        (∀ e, d.api.get_lldp_neighbors_info = .error e → l = []) ∧
        (∀ t, d.api.get_lldp_neighbors_info = .ok t → l = t)) := by
  by_cases h : d.os ∉ mgr.supported_os ∨ ¬ d.connected
  · have hplace : get_neighbor_info mgr d =
        .ok ([], [(d.name, [("cdp", []), ("lldp", [])])]) := by
      rcases h with h | h
      · simp [get_neighbor_info, h]
      · rw [Bool.not_eq_true] at h
        simp [get_neighbor_info, h]
    refine ⟨[], [], [], hplace, ?_⟩
    intro hos hc
    rcases h with h | h
    · exact absurd hos h
    · exact absurd hc h
  · push_neg at h
    obtain ⟨hos, hc⟩ := h
    cases hcdp : d.api.get_cdp_neighbors_info with
    | ok tc =>
      cases hlldp : d.api.get_lldp_neighbors_info with
      | ok tl =>
        refine ⟨["get_cdp_neighbors_info", "get_lldp_neighbors_info"], tc, tl, ?_, ?_⟩
        · simp [get_neighbor_info, hos, hc, hcdp, hlldp]
        · intro _ _
          refine ⟨?_, ?_, ?_, ?_⟩ <;> intro x hx <;>
            simp [hcdp, hlldp] at hx <;> simp [hx]
      | error el =>
        refine ⟨["get_cdp_neighbors_info", "get_lldp_neighbors_info"], tc, [], ?_, ?_⟩
        · simp [get_neighbor_info, hos, hc, hcdp, hlldp]
        · intro _ _
          refine ⟨?_, ?_, ?_, ?_⟩ <;> intro x hx <;>
            simp [hcdp, hlldp] at hx <;> simp [hx]
    | error ec =>
      cases hlldp : d.api.get_lldp_neighbors_info with
      | ok tl =>
        refine ⟨["get_cdp_neighbors_info", "get_lldp_neighbors_info"], [], tl, ?_, ?_⟩
        · simp [get_neighbor_info, hos, hc, hcdp, hlldp]
        · intro _ _
          refine ⟨?_, ?_, ?_, ?_⟩ <;> intro x hx <;>
            simp [hcdp, hlldp] at hx <;> simp [hx]
      | error el =>
        refine ⟨["get_cdp_neighbors_info", "get_lldp_neighbors_info"], [], [], ?_, ?_⟩
        · simp [get_neighbor_info, hos, hc, hcdp, hlldp]
        · intro _ _
          refine ⟨?_, ?_, ?_, ?_⟩ <;> intro x hx <;>
            simp [hcdp, hlldp] at hx <;> simp [hx]

/-- Connected supported device for the C10 witness. -/
def devW10 : Device := ⟨"w10", "ios", true, [], [], apiOk⟩

/-- Manager holding only `devW10`. -/
def mgrW10 : Manager := ⟨false, [], 10, ["ios"], [], [], [], [devW10]⟩

/-- Witness for `get_neighbor_info_shape` at a concrete eligible device. -/
theorem get_neighbor_info_shape_witness :
    ∃ tr c l, get_neighbor_info mgrW10 devW10 =
        .ok (tr, [(devW10.name, [("cdp", c), ("lldp", l)])]) ∧
      (devW10.os ∈ mgrW10.supported_os → devW10.connected = true →
        (∀ e, devW10.api.get_cdp_neighbors_info = .error e → c = []) ∧
        (∀ t, devW10.api.get_cdp_neighbors_info = .ok t → c = t) ∧
        (∀ e, devW10.api.get_lldp_neighbors_info = .error e → l = []) ∧
        (∀ t, devW10.api.get_lldp_neighbors_info = .ok t → l = t)) :=
  get_neighbor_info_shape mgrW10 devW10

/-- Concrete connected but unsupported-OS device: its OS tag "linux" is not
among the supported platforms, yet it is connected, not visited, and not yet
marked configured. -/
def devC2 : Device := ⟨"d2", "linux", true, [], [], apiOk⟩

/-- Manager holding only `devC2`, with the default supported-OS list. -/
def mgrC2 : Manager :=
  ⟨false, [], 10, ["nxos", "iosxe", "iosxr", "ios"], [], [], [], [devC2]⟩

/-- Counterexample to C2: the cdp configuration orchestrator's selection
(line 92) tests visited/configured/connected but never the OS tag, so the
connected unsupported-OS device `devC2` IS selected for configuration,
refuting "no orchestrator operation touches it". -/
theorem unsupported_os_selected_counterexample :
    devC2 ∈ cdp_selection mgrC2 ∧ devC2.os ∉ mgrC2.supported_os := by
  constructor
  · show devC2 ∈ cdp_selection mgrC2
    have : cdp_selection mgrC2 = [devC2] := rfl
    rw [this]
    exact List.mem_singleton.mpr rfl
  · decide

/-- C2 amended: a device with unsupported OS is never submitted by
`connect_all_devices`, collection yields only the empty placeholder / no-op
for it, and the cdp/lldp configuration orchestrators do not select it as
long as it is not connected — but their selection predicate does not test
the OS tag, so such a device is selected whenever it is connected (and not
visited / already marked). -/
theorem unsupported_os_untouched (mgr : Manager) (d : Device)
    (hos : d.os ∉ mgr.supported_os) :
    d ∉ connect_selection mgr ∧
    get_neighbor_info mgr d =
      .ok ([], [(d.name, [("cdp", []), ("lldp", [])])]) ∧
    get_interfaces_ipV4_address mgr d = .ok ([], d) ∧
    (d.connected = false → d ∉ cdp_selection mgr ∧ d ∉ lldp_selection mgr) ∧
    (d ∈ cdp_selection mgr → d.connected = true) ∧
    (d ∈ lldp_selection mgr → d.connected = true) := by
  refine ⟨?_, ?_, ?_, ?_, ?_, ?_⟩
  · intro hmem
    rw [connect_selection, List.mem_filter] at hmem
    simp [should_connect, hos] at hmem
  · simp [get_neighbor_info, hos]
  · simp [get_interfaces_ipV4_address, hos]
  · intro hc
    refine ⟨?_, ?_⟩
    · intro hmem
      rw [cdp_selection, List.mem_filter] at hmem
      simp [cdp_eligible, hc] at hmem
    · intro hmem
      rw [lldp_selection, List.mem_filter] at hmem
      simp [lldp_eligible, hc] at hmem
  · intro hmem
    rw [cdp_selection, List.mem_filter] at hmem
    simp only [cdp_eligible, Bool.not_eq_true', Bool.or_eq_false_iff,
      Bool.not_eq_true, decide_eq_false_iff_not, Bool.not_eq_false'] at hmem
    exact hmem.2.2
  · intro hmem
    rw [lldp_selection, List.mem_filter] at hmem
    simp only [lldp_eligible, Bool.not_eq_true', Bool.or_eq_false_iff,
      Bool.not_eq_true, decide_eq_false_iff_not, Bool.not_eq_false'] at hmem
    exact hmem.2.2

/-- Witness for `unsupported_os_untouched`: the unsupported device is not in
the connect selection and collection yields the placeholder. -/
theorem unsupported_os_untouched_witness :
    devC2 ∉ connect_selection mgrC2 ∧
      get_neighbor_info mgrC2 devC2 =
        .ok ([], [("d2", [("cdp", []), ("lldp", [])])]) :=
  ⟨(unsupported_os_untouched mgrC2 devC2 (by decide)).1,
   (unsupported_os_untouched mgrC2 devC2 (by decide)).2.1⟩

/-- Every attempt issued by the fallback loop uses the configured timeout. -/
lemma try_connections_timeout (mgr : Manager) :
    ∀ (cs : List Conn) (d : Device) (p : String × Nat),
      p ∈ (try_connections mgr d cs).fst → p.snd = mgr.timeout := by
  intro cs
  induction cs with
  | nil =>
    intro d p hp
    simp [try_connections] at hp
  | cons c rest ih =>
    intro d p hp
    rw [try_connections] at hp
    by_cases hssh : ¬ mgr.ssh_only ∨ (mgr.ssh_only ∧ c.protocol = "ssh")
    · rw [if_pos hssh] at hp
      cases hac : attempt_connect d c.name mgr.timeout with
      | ok d1 =>
        rw [hac] at hp
        simp only [List.mem_singleton] at hp
        rw [hp]
      | error e =>
        rw [hac] at hp
        cases hde : destroy d with
        | error e2 =>
          rw [hde] at hp
          simp only [List.mem_singleton] at hp
          rw [hp]
        | ok d2 =>
          rw [hde] at hp
          simp only [List.mem_cons] at hp
          rcases hp with hp | hp
          · rw [hp]
          · exact ih _ _ hp
    · rw [if_neg hssh] at hp
      exact ih _ _ hp

/-- C3 amended: when a preferred alias is configured for the device and
names an existing connection path, `_connect_one_device` makes the
preferred-path attempt first, but with the hardcoded 10-second timeout
(line 65), while every fallback attempt uses the configured per-attempt
timeout `self.timeout` — whether the unit then terminates normally or a
`destroy()` failure escapes. -/
theorem connect_alias_fixed_timeout (mgr : Manager) (d : Device) (a : String)
    (ha : lookupAlias mgr.alias_dict d.name = some a)
    (hc : a ∈ d.connections.map Conn.name) :
    ∃ t r, connect_one_device mgr d = ((a, 10) :: t, r) ∧
      ∀ p ∈ t, p.snd = mgr.timeout := by
  have halias : (alias_attempt mgr d).fst = [(a, 10)] := by
    rw [alias_attempt, ha]
    simp only []
    rw [if_pos hc]
    cases attempt_connect d a 10 <;> rfl
  rw [connect_one_device]
  cases hsnd : (alias_attempt mgr d).snd with
  | error e =>
    refine ⟨[], .error e, ?_, by simp⟩
    simp only [hsnd, halias]
  | ok d1 =>
    simp only [hsnd]
    by_cases hcn : d1.connected
    · rw [if_pos hcn]
      refine ⟨[], .ok d1, ?_, by simp⟩
      rw [halias]
    · rw [if_neg hcn]
      refine ⟨(try_connections mgr d1 d1.connections).fst,
        (try_connections mgr d1 d1.connections).snd, ?_, ?_⟩
      · rw [halias]
        rfl
      · intro p hp
        exact try_connections_timeout mgr _ _ _ hp

/-- Oracle for the C3 counterexample: connecting via "mgmt" succeeds with a
20-second timeout and fails with any other timeout. -/
def apiC3 : DeviceApi :=
  { apiOk with connect := fun v t =>
      if v = "mgmt" ∧ t = 20 then .ok () else .error "timeout" }

/-- Disconnected device with one ssh connection path named "mgmt". -/
def devC3 : Device := ⟨"r1", "iosxe", false, [⟨"mgmt", "ssh"⟩], [], apiC3⟩

/-- Manager with configured per-attempt timeout 20 and preferred alias
"mgmt" for device "r1". -/
def mgrC3 : Manager := ⟨false, [("r1", "mgmt")], 20, ["iosxe"], [], [], [], [devC3]⟩

/-- Counterexample to C3: with `timeout = 20` configured, the preferred-path
attempt (the first element of the attempt trace) is made with timeout 10 —
the hardcoded `connection_timeout = 10` of line 65 — not with the
configured per-attempt timeout; only the subsequent fallback attempt uses
20. -/
theorem alias_timeout_counterexample :
    (connect_one_device mgrC3 devC3).fst =
      [("mgmt", 10), ("mgmt", 20)] ∧ mgrC3.timeout = 20 :=
  ⟨rfl, rfl⟩

/-- Witness for `connect_alias_fixed_timeout` at the concrete C3 device. -/
theorem connect_alias_fixed_timeout_witness :
    ∃ t r, connect_one_device mgrC3 devC3 = (("mgmt", 10) :: t, r) ∧
      ∀ p ∈ t, p.snd = mgrC3.timeout :=
  connect_alias_fixed_timeout mgrC3 devC3 "mgmt" rfl (by decide)

/-- Membership after a set-insert. -/
lemma mem_insertName (n m : String) (s : List String) :
    m ∈ insertName n s ↔ m = n ∨ m ∈ s := by
  rw [insertName]
  by_cases h : n ∈ s
  · rw [if_pos h]
    constructor
    · exact Or.inr
    · rintro (rfl | hm)
      · exact h
      · exact hm
  · rw [if_neg h]
    exact List.mem_cons

/-- Set-insert preserves freedom from duplicates. -/
lemma insertName_nodup (n : String) (s : List String) (h : s.Nodup) :
    (insertName n s).Nodup := by
  rw [insertName]
  by_cases hn : n ∈ s
  · rw [if_pos hn]
    exact h
  · rw [if_neg hn]
    exact List.nodup_cons.2 ⟨hn, h⟩

/-- Outcome analysis of one cdp-configuration unit of work: on normal
return, everything but `cdp_configured` is unchanged, and `cdp_configured`
either is unchanged or gained exactly the device's name — the latter only
when the verify probe returned false and the enable call succeeded. -/
lemma configure_device_cdp_cases (mgr : Manager) (d : Device) (mgr1 : Manager)
    (h : configure_device_cdp_protocol mgr d = .ok mgr1) :
    mgr1.ssh_only = mgr.ssh_only ∧ mgr1.alias_dict = mgr.alias_dict ∧
    mgr1.timeout = mgr.timeout ∧ mgr1.supported_os = mgr.supported_os ∧
    mgr1.lldp_configured = mgr.lldp_configured ∧
    mgr1.visited_devices = mgr.visited_devices ∧ mgr1.testbed = mgr.testbed ∧
    (mgr1.cdp_configured = mgr.cdp_configured ∨
      (mgr1.cdp_configured = insertName d.name mgr.cdp_configured ∧
        d.api.verify_cdp_in_state mgr.timeout 5 = .ok false ∧
        d.api.configure_cdp = .ok ())) := by
  rw [configure_device_cdp_protocol] at h
  split at h
  · cases h
  · rename_i inState heq
    by_cases hb : inState = true
    · subst hb
      rw [if_neg (by simp)] at h
      injection h with h1
      subst h1
      exact ⟨rfl, rfl, rfl, rfl, rfl, rfl, rfl, Or.inl rfl⟩
    · have hb1 : inState = false := by
        cases inState
        · rfl
        · exact absurd rfl hb
      subst hb1
      rw [if_pos (by simp)] at h
      split at h
      · rename_i u hcfg
        injection h with h1
        subst h1
        exact ⟨rfl, rfl, rfl, rfl, rfl, rfl, rfl, Or.inr ⟨rfl, heq, hcfg⟩⟩
      · injection h with h1
        subst h1
        exact ⟨rfl, rfl, rfl, rfl, rfl, rfl, rfl, Or.inl rfl⟩

/-- Outcome analysis of one lldp-configuration unit of work. -/
lemma configure_device_lldp_cases (mgr : Manager) (d : Device) (mgr1 : Manager)
    (h : configure_device_lldp_protocol mgr d = .ok mgr1) :
    mgr1.ssh_only = mgr.ssh_only ∧ mgr1.alias_dict = mgr.alias_dict ∧
    mgr1.timeout = mgr.timeout ∧ mgr1.supported_os = mgr.supported_os ∧
    mgr1.cdp_configured = mgr.cdp_configured ∧
    mgr1.visited_devices = mgr.visited_devices ∧ mgr1.testbed = mgr.testbed ∧
    (mgr1.lldp_configured = mgr.lldp_configured ∨
      (mgr1.lldp_configured = insertName d.name mgr.lldp_configured ∧
        d.api.verify_lldp_in_state mgr.timeout 5 = .ok false ∧
        d.api.configure_lldp = .ok ())) := by
  rw [configure_device_lldp_protocol] at h
  split at h
  · cases h
  · rename_i inState heq
    by_cases hb : inState = true
    · subst hb
      rw [if_neg (by simp)] at h
      injection h with h1
      subst h1
      exact ⟨rfl, rfl, rfl, rfl, rfl, rfl, rfl, Or.inl rfl⟩
    · have hb1 : inState = false := by
        cases inState
        · rfl
        · exact absurd rfl hb
      subst hb1
      rw [if_pos (by simp)] at h
      split at h
      · rename_i u hcfg
        injection h with h1
        subst h1
        exact ⟨rfl, rfl, rfl, rfl, rfl, rfl, rfl, Or.inr ⟨rfl, heq, hcfg⟩⟩
      · injection h with h1
        subst h1
        exact ⟨rfl, rfl, rfl, rfl, rfl, rfl, rfl, Or.inl rfl⟩

/-- Across a whole cdp fan-out: the frame is preserved, `cdp_configured`
grows monotonically, every new name comes from a device of the work list
whose verify probe returned false and whose enable call succeeded, and
freedom from duplicates is preserved. -/
lemma run_cdp_fanout_spec :
    ∀ (l : List Device) (mgr mgr1 : Manager),
      run_cdp_fanout mgr l = .ok mgr1 →
      mgr1.timeout = mgr.timeout ∧ mgr1.supported_os = mgr.supported_os ∧
      mgr1.lldp_configured = mgr.lldp_configured ∧
      mgr1.visited_devices = mgr.visited_devices ∧ mgr1.testbed = mgr.testbed ∧
      (∀ n ∈ mgr.cdp_configured, n ∈ mgr1.cdp_configured) ∧
      (∀ n, n ∈ mgr1.cdp_configured → n ∉ mgr.cdp_configured →
        ∃ d, d ∈ l ∧ d.name = n ∧
          d.api.verify_cdp_in_state mgr.timeout 5 = .ok false ∧
          d.api.configure_cdp = .ok ()) ∧
      (mgr.cdp_configured.Nodup → mgr1.cdp_configured.Nodup) := by
  intro l
  induction l with
  | nil =>
    intro mgr mgr1 h
    rw [run_cdp_fanout] at h
    injection h with h1
    subst h1
    exact ⟨rfl, rfl, rfl, rfl, rfl, fun n hn => hn,
      fun n hn hnot => absurd hn hnot, id⟩
  | cons d rest ih =>
    intro mgr mgr1 h
    rw [run_cdp_fanout] at h
    cases hstep : configure_device_cdp_protocol mgr d with
    | error e =>
      rw [hstep] at h
      cases h
    | ok m1 =>
      rw [hstep] at h
      obtain ⟨-, -, htmo, hsup, hlldp, hvis, htb, hcdp⟩ :=
        configure_device_cdp_cases mgr d m1 hstep
      obtain ⟨htmo2, hsup2, hlldp2, hvis2, htb2, hmono2, hnew2, hnd2⟩ :=
        ih m1 mgr1 h
      refine ⟨htmo2.trans htmo, hsup2.trans hsup, hlldp2.trans hlldp,
        hvis2.trans hvis, htb2.trans htb, ?_, ?_, ?_⟩
      · intro n hn
        apply hmono2
        rcases hcdp with hc | ⟨hc, -, -⟩
        · rw [hc]
          exact hn
        · rw [hc]
          exact (mem_insertName _ _ _).2 (Or.inr hn)
      · intro n hn hnot
        by_cases hm1 : n ∈ m1.cdp_configured
        · rcases hcdp with hc | ⟨hc, hv, hcf⟩
          · rw [hc] at hm1
            exact absurd hm1 hnot
          · rw [hc] at hm1
            rcases (mem_insertName _ _ _).1 hm1 with rfl | hmem
            · exact ⟨d, List.mem_cons_self d rest, rfl, hv, hcf⟩
            · exact absurd hmem hnot
        · obtain ⟨d2, hd2, hname, hv2, hcf2⟩ := hnew2 n hn hm1
          rw [htmo] at hv2
          exact ⟨d2, List.mem_cons_of_mem _ hd2, hname, hv2, hcf2⟩
      · intro hnd
        apply hnd2
        rcases hcdp with hc | ⟨hc, -, -⟩
        · rw [hc]
          exact hnd
        · rw [hc]
          exact insertName_nodup _ _ hnd

/-- Across a whole lldp fan-out (mirror of `run_cdp_fanout_spec`). -/
lemma run_lldp_fanout_spec :
    ∀ (l : List Device) (mgr mgr1 : Manager),
      run_lldp_fanout mgr l = .ok mgr1 →
      mgr1.timeout = mgr.timeout ∧ mgr1.supported_os = mgr.supported_os ∧
      mgr1.cdp_configured = mgr.cdp_configured ∧
      mgr1.visited_devices = mgr.visited_devices ∧ mgr1.testbed = mgr.testbed ∧
      (∀ n ∈ mgr.lldp_configured, n ∈ mgr1.lldp_configured) ∧
      (∀ n, n ∈ mgr1.lldp_configured → n ∉ mgr.lldp_configured →
        ∃ d, d ∈ l ∧ d.name = n ∧
          d.api.verify_lldp_in_state mgr.timeout 5 = .ok false ∧
          d.api.configure_lldp = .ok ()) ∧
      (mgr.lldp_configured.Nodup → mgr1.lldp_configured.Nodup) := by
  intro l
  induction l with
  | nil =>
    intro mgr mgr1 h
    rw [run_lldp_fanout] at h
    injection h with h1
    subst h1
    exact ⟨rfl, rfl, rfl, rfl, rfl, fun n hn => hn,
      fun n hn hnot => absurd hn hnot, id⟩
  | cons d rest ih =>
    intro mgr mgr1 h
    rw [run_lldp_fanout] at h
    cases hstep : configure_device_lldp_protocol mgr d with
    | error e =>
      rw [hstep] at h
      cases h
    | ok m1 =>
      rw [hstep] at h
      obtain ⟨-, -, htmo, hsup, hcdp0, hvis, htb, hlldp⟩ :=
        configure_device_lldp_cases mgr d m1 hstep
      obtain ⟨htmo2, hsup2, hcdp2, hvis2, htb2, hmono2, hnew2, hnd2⟩ :=
        ih m1 mgr1 h
      refine ⟨htmo2.trans htmo, hsup2.trans hsup, hcdp2.trans hcdp0,
        hvis2.trans hvis, htb2.trans htb, ?_, ?_, ?_⟩
      · intro n hn
        apply hmono2
        rcases hlldp with hc | ⟨hc, -, -⟩
        · rw [hc]
          exact hn
        · rw [hc]
          exact (mem_insertName _ _ _).2 (Or.inr hn)
      · intro n hn hnot
        by_cases hm1 : n ∈ m1.lldp_configured
        · rcases hlldp with hc | ⟨hc, hv, hcf⟩
          · rw [hc] at hm1
            exact absurd hm1 hnot
          · rw [hc] at hm1
            rcases (mem_insertName _ _ _).1 hm1 with rfl | hmem
            · exact ⟨d, List.mem_cons_self d rest, rfl, hv, hcf⟩
            · exact absurd hmem hnot
        · obtain ⟨d2, hd2, hname, hv2, hcf2⟩ := hnew2 n hn hm1
          rw [htmo] at hv2
          exact ⟨d2, List.mem_cons_of_mem _ hd2, hname, hv2, hcf2⟩
      · intro hnd
        apply hnd2
        rcases hlldp with hc | ⟨hc, -, -⟩
        · rw [hc]
          exact hnd
        · rw [hc]
          exact insertName_nodup _ _ hnd

/-- When every device of the work list verifies as not-in-state and enables
successfully, the cdp fan-out records every device's name. -/
lemma run_cdp_fanout_adds_all :
    ∀ (l : List Device) (mgr mgr1 : Manager),
      run_cdp_fanout mgr l = .ok mgr1 →
      (∀ d ∈ l, d.api.verify_cdp_in_state mgr.timeout 5 = .ok false ∧
        d.api.configure_cdp = .ok ()) →
      ∀ d ∈ l, d.name ∈ mgr1.cdp_configured := by
  intro l
  induction l with
  | nil =>
    intro mgr mgr1 h hall d hd
    cases hd
  | cons c rest ih =>
    intro mgr mgr1 h hall d hd
    rw [run_cdp_fanout] at h
    cases hstep : configure_device_cdp_protocol mgr c with
    | error e =>
      rw [hstep] at h
      cases h
    | ok m1 =>
      rw [hstep] at h
      obtain ⟨-, -, htmo, -, -, -, -, -⟩ := configure_device_cdp_cases mgr c m1 hstep
      have hm1 : m1.cdp_configured = insertName c.name mgr.cdp_configured := by
        obtain ⟨hv, hcf⟩ := hall c (List.mem_cons_self c rest)
        rw [configure_device_cdp_protocol, hv, hcf] at hstep
        simp at hstep
        rw [← hstep]
      rcases List.mem_cons.1 hd with rfl | hdrest
      · have hmem1 : d.name ∈ m1.cdp_configured := by
          rw [hm1]
          exact (mem_insertName _ _ _).2 (Or.inl rfl)
        obtain ⟨-, -, -, -, -, hmono, -, -⟩ := run_cdp_fanout_spec rest m1 mgr1 h
        exact hmono _ hmem1
      · refine ih m1 mgr1 h ?_ d hdrest
        intro d2 hd2
        rw [htmo]
        exact hall d2 (List.mem_cons_of_mem _ hd2)

/-- Unfolding of the cdp eligibility test into propositions. -/
lemma cdp_eligible_iff (mgr : Manager) (d : Device) :
    cdp_eligible mgr d = true ↔
      d.name ∉ mgr.visited_devices ∧ d.name ∉ mgr.cdp_configured ∧
        d.connected = true := by
  simp only [cdp_eligible, Bool.not_eq_true', Bool.or_eq_false_iff,
    decide_eq_false_iff_not, Bool.not_eq_false']
  tauto

/-- Unfolding of the lldp eligibility test into propositions. -/
lemma lldp_eligible_iff (mgr : Manager) (d : Device) :
    lldp_eligible mgr d = true ↔
      d.name ∉ mgr.visited_devices ∧ d.name ∉ mgr.lldp_configured ∧
        d.connected = true := by
  simp only [lldp_eligible, Bool.not_eq_true', Bool.or_eq_false_iff,
    decide_eq_false_iff_not, Bool.not_eq_false']
  tauto

/-- Oracle whose cdp verify probe reports the protocol already in state. -/
def apiC4 : DeviceApi := { apiOk with verify_cdp_in_state := fun _ _ => .ok true }

/-- Connected eligible device whose cdp is already enabled on the box. -/
def devC4 : Device := ⟨"c4", "iosxe", true, [], [], apiC4⟩

/-- Manager holding only `devC4`. -/
def mgrC4 : Manager := ⟨false, [], 10, ["iosxe"], [], [], [], [devC4]⟩

/-- Counterexample to C4: a selected device that is already in-state is
never added to `cdp_configured` (only a successful enable adds, line 111),
so the first run leaves the state unchanged and the second run's selection
is the same nonempty list — it selects the device again and spawns the
fan-out again. -/
theorem configure_cdp_twice_counterexample :
    configure_testbed_cdp_protocol mgrC4 = .ok mgrC4 ∧
      (cdp_selection mgrC4).length = 1 :=
  ⟨rfl, rfl⟩

/-- C4 amended: the second run's selection is empty when (and because) the
first run marked every selected device — that is, when every device of the
first selection had its verify probe return false and its enable call
succeed.  Devices already in-state or whose enable failed are not marked
and are selected again. -/
theorem configure_cdp_second_run_empty (mgr mgr1 : Manager)
    (hrun : configure_testbed_cdp_protocol mgr = .ok mgr1)
    (hall : ∀ d ∈ cdp_selection mgr,
      d.api.verify_cdp_in_state mgr.timeout 5 = .ok false ∧
      d.api.configure_cdp = .ok ()) :
    cdp_selection mgr1 = [] ∧
      configure_testbed_cdp_protocol mgr1 = .ok mgr1 := by
  have hsel : cdp_selection mgr1 = [] := by
    rw [configure_testbed_cdp_protocol] at hrun
    by_cases hempty : (cdp_selection mgr).isEmpty
    · rw [if_pos hempty] at hrun
      injection hrun with h1
      subst h1
      rw [List.isEmpty_iff] at hempty
      exact hempty
    · rw [if_neg hempty] at hrun
      obtain ⟨-, -, -, hvis, htb, hmono, -, -⟩ :=
        run_cdp_fanout_spec (cdp_selection mgr) mgr mgr1 hrun
      have hadds := run_cdp_fanout_adds_all (cdp_selection mgr) mgr mgr1 hrun hall
      rw [cdp_selection, htb, List.filter_eq_nil_iff]
      intro d hd
      intro heg
      obtain ⟨hnv, hnc, hcon⟩ := (cdp_eligible_iff mgr1 d).1 heg
      rw [hvis] at hnv
      by_cases helig : cdp_eligible mgr d = true
      · have hdsel : d ∈ cdp_selection mgr :=
          List.mem_filter.2 ⟨hd, helig⟩
        exact hnc (hadds d hdsel)
      · rw [cdp_eligible_iff] at helig
        push_neg at helig
        rcases Classical.em (d.name ∈ mgr.visited_devices) with hv | hv
        · exact hnv hv
        · rcases Classical.em (d.name ∈ mgr.cdp_configured) with hc | hc
          · exact hnc (hmono _ hc)
          · exact absurd (helig hv hc) (by simp [hcon])
  refine ⟨hsel, ?_⟩
  rw [configure_testbed_cdp_protocol]
  simp [hsel]

/-- Connected eligible device with a well-behaved oracle, for the C4
witness. -/
def devW4 : Device := ⟨"w4", "iosxe", true, [], [], apiOk⟩

/-- Manager holding only `devW4`. -/
def mgrW4 : Manager := ⟨false, [], 10, ["iosxe"], [], [], [], [devW4]⟩

/-- Witness for `configure_cdp_second_run_empty`: after a first run in which
the only selected device was verified out-of-state and enabled
successfully, the second run selects nothing and returns immediately. -/
theorem configure_cdp_second_run_empty_witness :
    cdp_selection { mgrW4 with cdp_configured := ["w4"] } = [] ∧
      configure_testbed_cdp_protocol { mgrW4 with cdp_configured := ["w4"] } =
        .ok { mgrW4 with cdp_configured := ["w4"] } :=
  configure_cdp_second_run_empty mgrW4 { mgrW4 with cdp_configured := ["w4"] }
    rfl
    (by
      intro d hd
      have hs : cdp_selection mgrW4 = [devW4] := rfl
      rw [hs, List.mem_singleton] at hd
      rw [hd]
      exact ⟨rfl, rfl⟩)

/-- C6: during a run, each protocol's configured set grows monotonically
(no name is ever removed), a name is added only for a selected device whose
verify probe said the protocol was not already in state and whose enable
call returned success, a name that is already present is never re-added
(the selection excludes it, and duplicate-freedom is preserved). -/
theorem configured_set_monotone_guarded (mgr : Manager) :
    (∀ mgr1, configure_testbed_cdp_protocol mgr = .ok mgr1 →
      (∀ n ∈ mgr.cdp_configured, n ∈ mgr1.cdp_configured) ∧
      (∀ n, n ∈ mgr1.cdp_configured → n ∉ mgr.cdp_configured →
        ∃ d, d ∈ cdp_selection mgr ∧ d.name = n ∧
          d.api.verify_cdp_in_state mgr.timeout 5 = .ok false ∧
          d.api.configure_cdp = .ok ()) ∧
      (mgr.cdp_configured.Nodup → mgr1.cdp_configured.Nodup)) ∧
    (∀ mgr2, configure_testbed_lldp_protocol mgr = .ok mgr2 →
      (∀ n ∈ mgr.lldp_configured, n ∈ mgr2.lldp_configured) ∧
      (∀ n, n ∈ mgr2.lldp_configured → n ∉ mgr.lldp_configured →
        ∃ d, d ∈ lldp_selection mgr ∧ d.name = n ∧
          d.api.verify_lldp_in_state mgr.timeout 5 = .ok false ∧
          d.api.configure_lldp = .ok ()) ∧
      (mgr.lldp_configured.Nodup → mgr2.lldp_configured.Nodup)) := by
  constructor
  · intro mgr1 hrun
    rw [configure_testbed_cdp_protocol] at hrun
    by_cases hempty : (cdp_selection mgr).isEmpty
    · rw [if_pos hempty] at hrun
      injection hrun with h1
      subst h1
      exact ⟨fun n hn => hn, fun n hn hnot => absurd hn hnot, id⟩
    · rw [if_neg hempty] at hrun
      obtain ⟨-, -, -, -, -, hmono, hnew, hnd⟩ :=
        run_cdp_fanout_spec (cdp_selection mgr) mgr mgr1 hrun
      exact ⟨hmono, hnew, hnd⟩
  · intro mgr2 hrun
    rw [configure_testbed_lldp_protocol] at hrun
    by_cases hempty : (lldp_selection mgr).isEmpty
    · rw [if_pos hempty] at hrun
      injection hrun with h1
      subst h1
      exact ⟨fun n hn => hn, fun n hn hnot => absurd hn hnot, id⟩
    · rw [if_neg hempty] at hrun
      obtain ⟨-, -, -, -, -, hmono, hnew, hnd⟩ :=
        run_lldp_fanout_spec (lldp_selection mgr) mgr mgr2 hrun
      exact ⟨hmono, hnew, hnd⟩

/-- Connected eligible device for the C6 witness, with a pre-populated
cdp configured set to exhibit monotonicity. -/
def mgrW6 : Manager :=
  ⟨false, [], 10, ["iosxe"], ["already"], [], [], [⟨"w6", "iosxe", true, [], [], apiOk⟩]⟩

/-- Witness for `configured_set_monotone_guarded`: the pre-existing name
survives a concrete cdp run. -/
theorem configured_set_monotone_guarded_witness :
    "already" ∈ (Manager.cdp_configured
      { mgrW6 with cdp_configured := insertName "w6" ["already"] }) :=
  ((configured_set_monotone_guarded mgrW6).1
    { mgrW6 with cdp_configured := insertName "w6" ["already"] } rfl).1
    "already" (List.mem_singleton.2 rfl)

/-- Behaviour of the interface fetch loop on normal return: names are kept
positionally, an interface with a resolved ipv4 is returned untouched, and
only interfaces that had no resolved ipv4 are fetched. -/
lemma fetch_interfaces_spec (api : DeviceApi) :
    ∀ (l : List Intf) (tr : List String) (l1 : List Intf),
      fetch_interfaces api l = .ok (tr, l1) →
      List.Forall₂ (fun i i1 => i1.name = i.name ∧ ∀ v, i.ipv4 = some v → i1 = i)
        l l1 ∧
      (∀ n ∈ tr, ∃ i ∈ l, i.name = n ∧ i.ipv4 = none) := by
  intro l
  induction l with
  | nil =>
    intro tr l1 h
    rw [fetch_interfaces] at h
    injection h with h1
    injection h1 with h2 h3
    subst h2
    subst h3
    exact ⟨List.Forall₂.nil, by intro n hn; cases hn⟩
  | cons i rest ih =>
    intro tr l1 h
    rw [fetch_interfaces] at h
    split at h
    · rename_i v hip
      split at h
      · cases h
      · rename_i t l2 hr
        injection h with h1
        injection h1 with h2 h3
        subst h2
        subst h3
        obtain ⟨hrel, htr⟩ := ih t l2 hr
        refine ⟨List.Forall₂.cons ⟨rfl, fun w hw => rfl⟩ hrel, ?_⟩
        intro n hn
        obtain ⟨j, hj, hjn, hjip⟩ := htr n hn
        exact ⟨j, List.mem_cons_of_mem _ hj, hjn, hjip⟩
    · rename_i hip
      split at h
      · cases h
      · rename_i ip hfetch
        by_cases hne : ip ≠ ""
        · rw [if_pos hne] at h
          split at h
          · cases h
          · rename_i v hparse
            split at h
            · cases h
            · rename_i t l2 hr
              injection h with h1
              injection h1 with h2 h3
              subst h2
              subst h3
              obtain ⟨hrel, htr⟩ := ih t l2 hr
              refine ⟨List.Forall₂.cons ⟨rfl, ?_⟩ hrel, ?_⟩
              · intro w hw
                exact absurd (hip.symm.trans hw) (by simp)
              · intro n hn
                rcases List.mem_cons.1 hn with rfl | hn2
                · exact ⟨i, List.mem_cons_self i rest, rfl, hip⟩
                · obtain ⟨j, hj, hjn, hjip⟩ := htr n hn2
                  exact ⟨j, List.mem_cons_of_mem _ hj, hjn, hjip⟩
        · rw [if_neg hne] at h
          split at h
          · cases h
          · rename_i t l2 hr
            injection h with h1
            injection h1 with h2 h3
            subst h2
            subst h3
            obtain ⟨hrel, htr⟩ := ih t l2 hr
            refine ⟨List.Forall₂.cons ⟨rfl, ?_⟩ hrel, ?_⟩
            · intro w hw
              exact absurd (hip.symm.trans hw) (by simp)
            · intro n hn
              rcases List.mem_cons.1 hn with rfl | hn2
              · exact ⟨i, List.mem_cons_self i rest, rfl, hip⟩
              · obtain ⟨j, hj, hjn, hjip⟩ := htr n hn2
                exact ⟨j, List.mem_cons_of_mem _ hj, hjn, hjip⟩

/-- C8: on normal return, `get_interfaces_ipV4_address` changes nothing but
interface ipv4 fields: the device's identity, OS, connectivity, connection
paths and oracle are untouched, each interface keeps its name and position,
an interface whose ipv4 was already non-null is returned exactly as it was,
only none-ipv4 interfaces are fetched, and in the three skip cases (not
connected, unsupported OS, zero interfaces) nothing is fetched and the
device is returned unchanged. -/
theorem get_interfaces_no_overwrite (mgr : Manager) (d : Device)
    (tr : List String) (d1 : Device)
    (h : get_interfaces_ipV4_address mgr d = .ok (tr, d1)) :
    d1.name = d.name ∧ d1.os = d.os ∧ d1.connected = d.connected ∧
    d1.connections = d.connections ∧ d1.api = d.api ∧
    List.Forall₂ (fun i i1 => i1.name = i.name ∧ ∀ v, i.ipv4 = some v → i1 = i)
      d.interfaces d1.interfaces ∧
    (∀ n ∈ tr, ∃ i ∈ d.interfaces, i.name = n ∧ i.ipv4 = none) ∧
    ((d.connected = false ∨ d.os ∉ mgr.supported_os ∨ d.interfaces.length < 1) →
      tr = [] ∧ d1 = d) := by
  rw [get_interfaces_ipV4_address] at h
  by_cases hc : d.connected = false ∨ d.os ∉ mgr.supported_os
      ∨ d.interfaces.length < 1
  · rw [if_pos hc] at h
    injection h with h1
    injection h1 with h2 h3
    subst h2
    subst h3
    refine ⟨rfl, rfl, rfl, rfl, rfl, ?_, ?_, fun _ => ⟨rfl, rfl⟩⟩
    · exact List.forall₂_same.2 (fun i hi => ⟨rfl, fun v hv => rfl⟩)
    · intro n hn
      cases hn
  · rw [if_neg hc] at h
    split at h
    · cases h
    · rename_i t l2 hr
      injection h with h1
      injection h1 with h2 h3
      subst h2
      rw [← h3]
      obtain ⟨hrel, htr⟩ := fetch_interfaces_spec d.api d.interfaces t l2 hr
      exact ⟨rfl, rfl, rfl, rfl, rfl, hrel, htr, fun hcc => absurd hcc hc⟩

/-- Connected device with one already-resolved and one unresolved
interface, for the C8 witness. -/
def devW8 : Device :=
  ⟨"w8", "ios", true, [], [⟨"Gi0", some "192.0.2.1/24"⟩, ⟨"Gi1", none⟩], apiOk⟩

/-- Manager holding only `devW8`. -/
def mgrW8 : Manager := ⟨false, [], 10, ["ios"], [], [], [], [devW8]⟩

/-- Witness for `get_interfaces_no_overwrite` at a concrete device: the
already-resolved interface is returned exactly as it was. -/
theorem get_interfaces_no_overwrite_witness :
    List.Forall₂ (fun i i1 => i1.name = i.name ∧ ∀ v, i.ipv4 = some v → i1 = i)
      devW8.interfaces
      (Device.interfaces { devW8 with interfaces :=
        [⟨"Gi0", some "192.0.2.1/24"⟩, ⟨"Gi1", some "10.0.0.1/24"⟩] }) :=
  (get_interfaces_no_overwrite mgrW8 devW8 ["Gi1"]
    { devW8 with interfaces :=
      [⟨"Gi0", some "192.0.2.1/24"⟩, ⟨"Gi1", some "10.0.0.1/24"⟩] } rfl).2.2.2.2.2.1

/-- Oracle whose interface-address fetch raises. -/
def apiC1 : DeviceApi :=
  { apiOk with get_interface_ipv4_address := fun _ => .error "boom" }

/-- Connected, supported device with one unresolved interface whose address
fetch raises. -/
def devC1 : Device := ⟨"e1", "iosxe", true, [], [⟨"Gi1", none⟩], apiC1⟩

/-- Manager holding only `devC1`. -/
def mgrC1 : Manager := ⟨false, [], 10, ["iosxe"], [], [], [], [devC1]⟩

/-- Counterexample to C1: the interface-address fetch of
`get_interfaces_ipV4_address` has no `try/except` around it (lines
204-209), so its failure propagates out of the unit of work instead of
being converted to a log entry plus a default. -/
theorem fetch_failure_propagates_counterexample :
    get_interfaces_ipV4_address mgrC1 devC1 = .error "boom" := rfl

/-- When every unresolved interface's fetch succeeds, the fetch loop
returns normally. -/
lemma fetch_interfaces_total (api : DeviceApi) :
    ∀ l : List Intf,
      (∀ i ∈ l, i.ipv4 = none →
        ∃ s, api.get_interface_ipv4_address i.name = .ok s ∧
          (s ≠ "" → ∃ v, IPv4Interface s = .ok v)) →
      ∃ r, fetch_interfaces api l = .ok r := by
  intro l
  induction l with
  | nil =>
    intro h
    exact ⟨([], []), rfl⟩
  | cons i rest ih =>
    intro h
    obtain ⟨⟨t, l2⟩, hr⟩ := ih (fun j hj hjn => h j (List.mem_cons_of_mem _ hj) hjn)
    cases hip : i.ipv4 with
    | some v =>
      refine ⟨(t, i :: l2), ?_⟩
      rw [fetch_interfaces, hip, hr]
    | none =>
      obtain ⟨s, hs, hparse⟩ := h i (List.mem_cons_self i rest) hip
      by_cases hne : s ≠ ""
      · obtain ⟨v, hv⟩ := hparse hne
        refine ⟨(i.name :: t, { i with ipv4 := some v } :: l2), ?_⟩
        rw [fetch_interfaces, hip, hs]
        simp [hne, hv, hr]
      · refine ⟨(i.name :: t, i :: l2), ?_⟩
        rw [fetch_interfaces, hip, hs]
        simp [hne, hr]

/-- The connect wrapper preserves the device's oracle on normal return. -/
lemma attempt_connect_api (d : Device) (via : String) (tmo : Nat) (d1 : Device)
    (h : attempt_connect d via tmo = .ok d1) : d1.api = d.api := by
  rw [attempt_connect] at h
  split at h
  · injection h with h1
    rw [← h1]
  · split at h
    · injection h with h1
      rw [← h1]
    · cases h

/-- When the device's destroy call succeeds, `destroy` returns the
disconnected device. -/
lemma destroy_ok (d : Device) (hd : d.api.destroy = .ok ()) :
    destroy d = .ok { d with connected := false } := by
  rw [destroy, hd]

/-- With a non-failing destroy, the alias block always terminates normally
and keeps the device's oracle. -/
lemma alias_attempt_total (mgr : Manager) (d : Device)
    (hd : d.api.destroy = .ok ()) :
    ∃ d1, (alias_attempt mgr d).snd = .ok d1 ∧ d1.api = d.api := by
  cases ha : lookupAlias mgr.alias_dict d.name with
  | none =>
    rw [alias_attempt, ha]
    exact ⟨d, rfl, rfl⟩
  | some a =>
    have hstep : alias_attempt mgr d =
        (if a ∈ d.connections.map Conn.name then
          match attempt_connect d a 10 with
          | .ok d1 => ([(a, 10)], .ok d1)
          | .error _ => ([(a, 10)], destroy d)
        else ([], .ok d)) := by
      rw [alias_attempt, ha]
    rw [hstep]
    by_cases hmem : a ∈ d.connections.map Conn.name
    · rw [if_pos hmem]
      cases hat : attempt_connect d a 10 with
      | ok d1 =>
        exact ⟨d1, rfl, attempt_connect_api d a 10 d1 hat⟩
      | error e =>
        exact ⟨{ d with connected := false },
          by rw [destroy_ok d hd], rfl⟩
    · rw [if_neg hmem]
      exact ⟨d, rfl, rfl⟩

/-- With a non-failing destroy, the fallback loop always terminates
normally and keeps the device's oracle. -/
lemma try_connections_total (mgr : Manager) :
    ∀ (cs : List Conn) (d : Device), d.api.destroy = .ok () →
      ∃ d2, (try_connections mgr d cs).snd = .ok d2 ∧ d2.api = d.api := by
  intro cs
  induction cs with
  | nil =>
    intro d hd
    exact ⟨d, rfl, rfl⟩
  | cons c rest ih =>
    intro d hd
    rw [try_connections]
    by_cases hssh : ¬ mgr.ssh_only ∨ (mgr.ssh_only ∧ c.protocol = "ssh")
    · rw [if_pos hssh]
      cases hac : attempt_connect d c.name mgr.timeout with
      | ok d1 =>
        exact ⟨d1, rfl, attempt_connect_api d c.name mgr.timeout d1 hac⟩
      | error e =>
        rw [destroy_ok d hd]
        obtain ⟨d2, h2, hapi⟩ := ih { d with connected := false } hd
        exact ⟨d2, h2, hapi⟩
    · rw [if_neg hssh]
      exact ih d hd

/-- C1 amended: failures raised by connection attempts, by the cdp/lldp
enable calls and by the neighbor fetches are caught inside their unit of
work and converted to a log entry plus a defined default.  But these
escape the unit of work uncaught: the `destroy()` calls made inside the
connect failure handlers (lines 68 and 83, unguarded inside the `except`
blocks), the cdp/lldp verify probes (outside the `try`, lines 108 and
141), and the interface-address fetch and its `IPv4Interface` parse (no
`try` at all, lines 206-208).  The connection unit terminates normally
whenever its destroy calls do, the configuration unit whenever its verify
probe does, and the interface unit whenever every needed fetch succeeds
and every fetched non-empty address parses. -/
theorem unit_failures_caught_except_probe_fetch_destroy (mgr : Manager) (d : Device) :
    (d.api.destroy = .ok () → ∃ d2, (connect_one_device mgr d).snd = .ok d2) ∧
    (∃ r, get_neighbor_info mgr d = .ok r) ∧
    (∀ b, d.api.verify_cdp_in_state mgr.timeout 5 = .ok b →
      ∃ m, configure_device_cdp_protocol mgr d = .ok m) ∧
    (∀ b, d.api.verify_lldp_in_state mgr.timeout 5 = .ok b →
      ∃ m, configure_device_lldp_protocol mgr d = .ok m) ∧
    ((∀ i ∈ d.interfaces, i.ipv4 = none →
        ∃ s, d.api.get_interface_ipv4_address i.name = .ok s ∧
          (s ≠ "" → ∃ v, IPv4Interface s = .ok v)) →
      ∃ r, get_interfaces_ipV4_address mgr d = .ok r) := by
  refine ⟨?_, ?_, ?_, ?_, ?_⟩
  · intro hd
    obtain ⟨d1, h1, hapi⟩ := alias_attempt_total mgr d hd
    rw [connect_one_device]
    simp only [h1]
    by_cases hcn : d1.connected
    · rw [if_pos hcn]
      exact ⟨d1, rfl⟩
    · rw [if_neg hcn]
      obtain ⟨d2, h2, -⟩ :=
        try_connections_total mgr d1.connections d1 (by rw [hapi]; exact hd)
      exact ⟨d2, h2⟩
  · unfold get_neighbor_info
    split
    · exact ⟨_, rfl⟩
    · exact ⟨_, rfl⟩
  · intro b hv
    cases b
    · cases hcfg : d.api.configure_cdp with
      | ok u =>
        exact ⟨{ mgr with cdp_configured := insertName d.name mgr.cdp_configured },
          by rw [configure_device_cdp_protocol, hv, hcfg]; rfl⟩
      | error e =>
        exact ⟨mgr, by rw [configure_device_cdp_protocol, hv, hcfg]; rfl⟩
    · exact ⟨mgr, by rw [configure_device_cdp_protocol, hv]; rfl⟩
  · intro b hv
    cases b
    · cases hcfg : d.api.configure_lldp with
      | ok u =>
        exact ⟨{ mgr with lldp_configured := insertName d.name mgr.lldp_configured },
          by rw [configure_device_lldp_protocol, hv, hcfg]; rfl⟩
      | error e =>
        exact ⟨mgr, by rw [configure_device_lldp_protocol, hv, hcfg]; rfl⟩
    · exact ⟨mgr, by rw [configure_device_lldp_protocol, hv]; rfl⟩
  · intro hfetch
    rw [get_interfaces_ipV4_address]
    by_cases hc : d.connected = false ∨ d.os ∉ mgr.supported_os
        ∨ d.interfaces.length < 1
    · rw [if_pos hc]
      exact ⟨_, rfl⟩
    · rw [if_neg hc]
      obtain ⟨⟨t, l2⟩, hr⟩ := fetch_interfaces_total d.api d.interfaces hfetch
      rw [hr]
      exact ⟨_, rfl⟩

/-- Benign connected device for the C1 witness. -/
def devW1 : Device := ⟨"w1", "iosxe", true, [], [], apiOk⟩

/-- Manager holding only `devW1`. -/
def mgrW1 : Manager := ⟨false, [], 10, ["iosxe"], [], [], [], [devW1]⟩

/-- Witness for `unit_failures_caught_except_probe_fetch_destroy`: with a
successfully returning verify probe the cdp configuration unit returns
normally. -/
theorem unit_failures_caught_witness :
    ∃ m, configure_device_cdp_protocol mgrW1 devW1 = .ok m :=
  (unit_failures_caught_except_probe_fetch_destroy mgrW1 devW1).2.2.1 false rfl

/-- One executor step preserves the in-flight bound. -/
lemma execStep_inflight_le (bound : Nat) (s s1 : ExecState)
    (h : ExecStep bound s s1) (hs : s.inflight ≤ bound) : s1.inflight ≤ bound := by
  cases h with
  | start hp hb => exact hb
  | finish hf => exact le_trans (Nat.sub_le _ _) hs

/-- Every state the bounded executor can reach from a state within the
bound stays within the bound. -/
lemma exec_reachable_inflight_le (bound : Nat) (s0 s : ExecState)
    (h : Relation.ReflTransGen (ExecStep bound) s0 s)
    (h0 : s0.inflight ≤ bound) : s.inflight ≤ bound := by
  induction h with
  | refl => exact h0
  | tail hab hbc ih => exact execStep_inflight_le bound _ _ hbc ih

/-- C9 amended: the `connect_all_devices` fan-out runs under the bounded
executor, so no reachable state of that fan-out ever has more than `limit`
connection attempts in flight; the cdp/lldp configuration fan-outs instead
use `pcall`, which starts one worker per selected device simultaneously —
their in-flight count at the start equals the whole selection size and is
not capped by any configured bound. -/
theorem fanout_bounds (mgr : Manager) (limit : Nat) (s : ExecState)
    (h : Relation.ReflTransGen (ExecStep limit) (connect_fanout_start mgr) s) :
    s.inflight ≤ limit ∧
    (cdp_fanout_start mgr).inflight = (cdp_selection mgr).length ∧
    (lldp_fanout_start mgr).inflight = (lldp_selection mgr).length :=
  ⟨exec_reachable_inflight_le limit _ s h (Nat.zero_le _), rfl, rfl⟩

/-- First connected eligible device for the C9 scenario. -/
def devC9a : Device := ⟨"c9a", "iosxe", true, [], [], apiOk⟩

/-- Second connected eligible device for the C9 scenario. -/
def devC9b : Device := ⟨"c9b", "iosxe", true, [], [], apiOk⟩

/-- Manager with two connected eligible devices. -/
def mgrC9 : Manager := ⟨false, [], 10, ["iosxe"], [], [], [], [devC9a, devC9b]⟩

/-- Counterexample to C9: with two selected devices the cdp configuration
fan-out (`pcall`, line 97) starts with two units in flight, exceeding a
configured worker bound of 1 — it is not capped at any configured bound. -/
theorem pcall_unbounded_counterexample :
    (cdp_fanout_start mgrC9).inflight = 2 ∧
      ¬ (cdp_fanout_start mgrC9).inflight ≤ 1 := by
  constructor
  · rfl
  · decide

/-- Witness for `fanout_bounds` at the initial state of a concrete connect
fan-out with worker bound 2. -/
theorem fanout_bounds_witness :
    (connect_fanout_start mgrC9).inflight ≤ 2 ∧
      (cdp_fanout_start mgrC9).inflight = (cdp_selection mgrC9).length ∧
      (lldp_fanout_start mgrC9).inflight = (lldp_selection mgrC9).length :=
  fanout_bounds mgrC9 2 (connect_fanout_start mgrC9) Relation.ReflTransGen.refl

end TestbedMgr
